import Mathlib

/-!
Formal model of the aviary tool-calling environment.

A shallow embedding of `src/aviary/env.py` and `src/aviary/utils.py`: the
tool-call dispatch (`Environment.exec_tool_calls` and its inner
`_exec_tool_call`), the valid/invalid split
(`Environment.filter_invalid_tool_calls`), dataset batching
(`TaskDataset.iter_batches`), and the utilities `is_coroutine_callable` and
`partial_format`.

Python exceptions are modelled with `Except`; `asyncio` scheduling is
determinized (tool functions are modelled as pure functions of their
arguments, so concurrent execution is a function of the request order).
The message and tool data types (`ToolCall`, `ToolRequestMessage`,
`ToolResponseMessage`, `Tool`) live in `aviary/tools.py`, which is not part
of the sources here; they are modelled from the spec's glossary and from how
`env.py` and the tests use them.
-/

namespace Aviary

mutual
/-- JSON values: the shallow embedding of the Python objects `json.dumps`
serializes (`None`, `bool`, `int`, `str`, `list`, `dict`). The element and
field lists are their own mutual inductive types (`JsonElems`,
`JsonFields`) so that serialization is plain structural recursion. -/
inductive Json where
  | null
  | bool (b : Bool)
  | num (n : Int)
  | str (s : String)
  | arr (elts : JsonElems)
  | obj (fields : JsonFields)

/-- The elements of a JSON array. -/
inductive JsonElems where
  | nil
  | cons (hd : Json) (tl : JsonElems)

/-- The key/value pairs of a JSON object. -/
inductive JsonFields where
  | nil
  | cons (key : String) (val : Json) (tl : JsonFields)
end

/-- The string-content escaping performed by Python JSON serializers. -/
def jsonEscape (s : String) : String :=
  String.join (s.toList.map fun c =>
    if c = '\\' then "\\\\"
    else if c = '"' then "\\\""
    else if c = '\n' then "\\n"
    else if c = '\t' then "\\t"
    else if c = '\r' then "\\r"
    else String.singleton c)

mutual
/-- Serialization of a `Json` value with the given item separator and
key/value separator. -/
def Json.dumpsWith (isep ksep : String) : Json → String
  | .null => "null"
  | .bool b => if b then "true" else "false"
  | .num n => toString n
  | .str s => "\"" ++ jsonEscape s ++ "\""
  | .arr elts => "[" ++ JsonElems.dumpsWith isep ksep elts ++ "]"
  | .obj fields => "\x7b" ++ JsonFields.dumpsWith isep ksep fields ++ "\x7d"

/-- Array elements, interleaved with the item separator. -/
def JsonElems.dumpsWith (isep ksep : String) : JsonElems → String
  | .nil => ""
  | .cons hd .nil => Json.dumpsWith isep ksep hd
  | .cons hd (.cons h2 tl) =>
      Json.dumpsWith isep ksep hd ++ isep ++ JsonElems.dumpsWith isep ksep (.cons h2 tl)

/-- Object fields, interleaved with the separators. -/
def JsonFields.dumpsWith (isep ksep : String) : JsonFields → String
  | .nil => ""
  | .cons key val .nil =>
      "\"" ++ jsonEscape key ++ "\"" ++ ksep ++ Json.dumpsWith isep ksep val
  | .cons key val (.cons k2 v2 tl) =>
      "\"" ++ jsonEscape key ++ "\"" ++ ksep ++ Json.dumpsWith isep ksep val ++ isep ++
        JsonFields.dumpsWith isep ksep (.cons k2 v2 tl)
end

/-- Python `json.dumps` with its default separators. -/
def Json.dumps (j : Json) : String := Json.dumpsWith ", " ": " j

/-- One field of a pydantic model: its Python name, its serialization alias
and its current value (`none` embeds a Python `None` value). -/
structure PydField where
  name : String
  serialization_alias : String
  value : Option Json

/-- A pydantic `BaseModel` instance, reduced to its field assignment. -/
structure PydModel where
  fields : List PydField

/-- pydantic `BaseModel.model_dump_json`: dump the fields as a compact JSON
object, dropping `None`-valued fields when `exclude_none` and keying on the
field aliases when `by_alias`. -/
def PydModel.model_dump_json (m : PydModel) (exclude_none by_alias : Bool) : String :=
  let fs := if exclude_none then m.fields.filter (fun f => f.value.isSome) else m.fields
  "\x7b" ++ String.intercalate "," (fs.map fun f =>
    "\"" ++ jsonEscape (if by_alias then f.serialization_alias else f.name) ++ "\":" ++
      Json.dumpsWith "," ":" (f.value.getD Json.null)) ++ "\x7d"

/-- A Python value as returned by a tool function: a `str`, a pydantic
`BaseModel`, or any other JSON-serializable value (`Json.null` embeds
`None`). -/
inductive PyObj where
  | str (s : String)
  | model (m : PydModel)
  | json (j : Json)

/-- A Python exception as observed by `Environment.exec_tool_calls`: the
`ValueError` raised for an unknown tool name, the `TypeError` raised by
`await` on a non-awaitable, or an exception raised by the tool function
itself (carrying its `str()` form). -/
inductive PyExc where
  | valueError (msg : String)
  | typeError (msg : String)
  | raised (msg : String)
deriving DecidableEq

/-- Python `str(exc)`: the message carried by the exception. -/
def PyExc.str : PyExc → String
  | .valueError msg => msg
  | .typeError msg => msg
  | .raised msg => msg

/-- The code-object metadata that `is_coroutine_callable` inspects: the
`co_flags` bitfield of a Python function. Bit `0x80` is `CO_COROUTINE`,
set exactly on `async def` functions. -/
structure CodeObject where
  co_flags : Nat
deriving DecidableEq

/-- CPython `inspect.iscoroutinefunction` in terms of the code flags: test
the `CO_COROUTINE` bit (`0x80`). This is the intended meaning the claims
and the source comments refer to ("Checks if it's a coroutine function"). -/
def iscoroutinefunction (code : CodeObject) : Bool :=
  (code.co_flags &&& 0x80) != 0

/-- A Python callable as classified by `is_coroutine_callable`
(`utils.py` lines 38-45): a plain function or bound method carrying its
code object, an object whose `__call__` attribute is such a function, or
anything else. -/
inductive PyCallable where
  | function (code : CodeObject)
  | callableObj (callCode : CodeObject)
  | other
deriving DecidableEq

/-- Python `isinstance(value, int)` for a value that is already an `int`
(here the result of `co_flags & 0x80`, which is always an `int` in
CPython): constantly `true`. -/
def isinstance_int (_value : Nat) : Bool :=
  true

/-- `is_coroutine_callable` (`utils.py` lines 38-45), as written in the
source: for a function or method it returns
`isinstance(obj.__code__.co_flags & 0x80, int)`, likewise for an object
whose `__call__` is a function or method, and `False` otherwise. -/
def is_coroutine_callable : PyCallable → Bool
  | .function code => isinstance_int (code.co_flags &&& 0x80)
  | .callableObj callCode => isinstance_int (callCode.co_flags &&& 0x80)
  | .other => false

/-- The private `_tool_fn` of a `Tool`: the underlying Python function,
with the metadata `_exec_tool_call` inspects (its code object, its
signature's parameter names, the `requires_state` attribute) and its call
semantics as a pure map from keyword arguments to either a returned value
or a raised exception. -/
structure ToolFn where
  code : CodeObject
  params : List String
  requires_state : Bool
  run : List (String × PyObj) → Except PyExc PyObj

/-- `FunctionInfo`: the part of a tool's schema the dispatcher reads. -/
structure FunctionInfo where
  name : String

/-- A `Tool`: its schema `info` and its wrapped function `tool_fn`. -/
structure Tool where
  info : FunctionInfo
  tool_fn : ToolFn

/-- An `Environment`, reduced to the only attribute the dispatch methods
use: its registered `tools` list. -/
structure Environment where
  tools : List Tool

/-- Modelled from the spec: a tool call's `function` member (from
`aviary/tools.py`, not part of the sources here) names a tool and supplies
keyword arguments. -/
structure ToolCallFunction where
  name : String
  arguments : List (String × PyObj)

/-- Modelled from the spec: a `ToolCall` (from `aviary/tools.py`, not part
of the sources here) is "a request naming a tool and supplying arguments",
carrying an identifier. -/
structure ToolCall where
  id : String
  function : ToolCallFunction

/-- Modelled from the spec: a `ToolRequestMessage` (from
`aviary/tools.py`, not part of the sources here) carries `role`, `content`
and `function_call` fields besides its `tool_calls`, as read by
`filter_invalid_tool_calls`. -/
structure ToolRequestMessage where
  role : String
  content : Option String
  function_call : Option String
  tool_calls : List ToolCall

/-- Modelled from the spec: a `ToolResponseMessage` (from
`aviary/tools.py`, not part of the sources here) is "the result of
executing a tool call, paired back to its originating request by
identifier". -/
structure ToolResponseMessage where
  tool_call_id : String
  name : String
  content : String
deriving DecidableEq

/-- Modelled from the spec: `ToolResponseMessage.from_call` (from
`aviary/tools.py`, not part of the sources here) builds the response to
`tool_call` with the given `content`, copying the originating request's
identifier and function name. -/
def ToolResponseMessage.from_call (tool_call : ToolCall) (content : String) :
    ToolResponseMessage :=
  ⟨tool_call.id, tool_call.function.name, content⟩

/-- The `need_to_filter` test of `_exec_tool_call` (`env.py` lines
183-187): a `state` keyword argument is dropped when the tool function's
signature has no `state` parameter and the function does not carry a
`requires_state` attribute. -/
def need_to_filter (tool : Tool) (function_kwargs : List (String × PyObj)) : Bool :=
  (function_kwargs.any fun kv => kv.1 == "state")
    && !(tool.tool_fn.params.contains "state")
    && !tool.tool_fn.requires_state

/-- The `filtered_kwargs` of `_exec_tool_call` (`env.py` lines 188-192). -/
def filtered_kwargs (tool : Tool) (function_kwargs : List (String × PyObj)) :
    List (String × PyObj) :=
  if need_to_filter tool function_kwargs then
    function_kwargs.filter fun kv => kv.1 != "state"
  else
    function_kwargs

/-- Calling and awaiting `tool._tool_fn` inside `_exec_tool_call`
(`env.py` lines 194-205). When `is_coroutine_callable` answers `true` the
code runs `content = await tool._tool_fn(...)`: for an actual coroutine
function this runs the coroutine, while for a synchronous function the
call returns a plain value and the `await` on it raises a `TypeError`
(inside the same `try` block, after the function body already ran).
Otherwise the code runs the synchronous call on a worker thread via
`asyncio.to_thread`. -/
def await_tool_fn (fn : ToolFn) (kwargs : List (String × PyObj)) : Except PyExc PyObj :=
  if is_coroutine_callable (.function fn.code) then
    if iscoroutinefunction fn.code then
      fn.run kwargs
    else
      match fn.run kwargs with
      | .ok _ => .error (.typeError "object can not be used in await expression")
      | .error e => .error e
  else
    fn.run kwargs

/-- The result serialization of `_exec_tool_call` (`env.py` lines
212-219): a `str` is used as-is, a pydantic `BaseModel` is dumped via
`model_dump_json(exclude_none=True, by_alias=True)`, and any other value
(including `None`) goes through `json.dumps`. -/
def serialize_content : PyObj → String
  | .str s => s
  | .model m => m.model_dump_json true true
  | .json j => j.dumps

/-- `_exec_tool_call` (`env.py` lines 172-220): look up the requested tool
by name — raising `ValueError` outside the exception-suppression block
when no registered tool matches — drop an unexpected `state` keyword
argument, call the tool function, and either serialize the returned value
or, when `handle_tool_exc`, turn a raised exception into a response whose
content stringifies it. -/
def _exec_tool_call (env : Environment) (handle_tool_exc : Bool)
    (function_kwargs : List (String × PyObj)) (tool_call : ToolCall) :
    Except PyExc ToolResponseMessage :=
  match env.tools.find? (fun t => t.info.name == tool_call.function.name) with
  | none => .error (.valueError (tool_call.function.name ++ " not a valid function."))
  | some tool =>
    match await_tool_fn tool.tool_fn
        (tool_call.function.arguments ++ filtered_kwargs tool function_kwargs) with
    | .ok content =>
      .ok (ToolResponseMessage.from_call tool_call (serialize_content content))
    | .error exc =>
      if handle_tool_exc then
        .ok (ToolResponseMessage.from_call tool_call
          ("Failed to execute tool call for tool " ++ tool.info.name ++ ":\n" ++ exc.str))
      else
        .error exc

/-- `asyncio.gather` over already-determinized task results: when every
task succeeds the results come back in the order of the input awaitables,
otherwise the first failure (determinized here to input order) propagates. -/
def gather {ε α : Type} : List (Except ε α) → Except ε (List α)
  | [] => .ok []
  | .error e :: _ => .error e
  | .ok a :: rest => (gather rest).map fun as => a :: as

/-- The `ordered=True` branch of `exec_tool_calls` (`env.py` line 226):
the list comprehension
`[await _exec_tool_call(tool_call) for tool_call in message.tool_calls]`,
which awaits the calls sequentially and propagates the first exception. -/
def seq_exec_tool_calls (env : Environment) (handle_tool_exc : Bool)
    (function_kwargs : List (String × PyObj)) :
    List ToolCall → Except PyExc (List ToolResponseMessage)
  | [] => .ok []
  | tool_call :: rest => do
    let r ← _exec_tool_call env handle_tool_exc function_kwargs tool_call
    let rs ← seq_exec_tool_calls env handle_tool_exc function_kwargs rest
    pure (r :: rs)

/-- `Environment.exec_tool_calls` (`env.py` lines 149-226): execute the
message's tool calls, concurrently through `asyncio.gather` by default or
sequentially when `ordered`. -/
def exec_tool_calls (env : Environment) (message : ToolRequestMessage)
    (ordered handle_tool_exc : Bool) (function_kwargs : List (String × PyObj)) :
    Except PyExc (List ToolResponseMessage) :=
  if !ordered then
    gather (message.tool_calls.map (_exec_tool_call env handle_tool_exc function_kwargs))
  else
    seq_exec_tool_calls env handle_tool_exc function_kwargs message.tool_calls

/-- The loop of `filter_invalid_tool_calls` (`env.py` lines 127-135):
split the tool calls, keeping order, into those whose function name
matches some registered tool and the rest. -/
def split_valid_invalid (env : Environment) : List ToolCall → List ToolCall × List ToolCall
  | [] => ([], [])
  | tool_call :: rest =>
    let vi := split_valid_invalid env rest
    if (env.tools.find? fun t => t.info.name == tool_call.function.name).isSome then
      (tool_call :: vi.1, vi.2)
    else
      (vi.1, tool_call :: vi.2)

/-- `Environment.filter_invalid_tool_calls` (`env.py` lines 115-147):
build two `ToolRequestMessage`s with the input's `role`, `content` and
`function_call`, carrying the valid and the invalid tool calls. -/
def filter_invalid_tool_calls (env : Environment) (message : ToolRequestMessage) :
    ToolRequestMessage × ToolRequestMessage :=
  (⟨message.role, message.content, message.function_call,
      (split_valid_invalid env message.tool_calls).1⟩,
   ⟨message.role, message.content, message.function_call,
      (split_valid_invalid env message.tool_calls).2⟩)

/-- The finite branch of `TaskDataset.iter_batches` (`env.py` lines
306-315): while indices remain, yield `get_new_env_by_idx` mapped over
`idcs[:batch_size]` and continue with `idcs[batch_size:]`. A `batch_size`
of zero makes the source loop forever without consuming indices; that case
(outside every claim, which assumes `batch_size >= 1`) is cut off at `[]`. -/
def iter_batches {α : Type} (getEnv : Nat → α) (batch_size : Nat) :
    List Nat → List (List α)
  | [] => []
  | i :: rest =>
    match batch_size with
    | 0 => []
    | b + 1 =>
      ((i :: rest).take (b + 1)).map getEnv ::
        iter_batches getEnv (b + 1) ((i :: rest).drop (b + 1))
termination_by idcs => idcs.length
decreasing_by
  simp only [List.length_drop, List.length_cons]
  omega

/-- One replacement-field chunk of a `str.format` template: literal text
or a named replacement field. Modelling note: templates are taken with
simple named fields only, and substituted values are assumed brace-free
(so substitution yields literal text). -/
inductive Chunk where
  | lit (s : String)
  | field (name : String)
deriving DecidableEq

/-- The names of the replacement fields of a template, left to right. -/
def chunkFieldNames (t : List Chunk) : List String :=
  t.filterMap fun c =>
    match c with
    | .field n => some n
    | .lit _ => none

/-- Python `value.format(**{k: v})` on a template: processing fields left
to right, the first field whose name is not the supplied key raises
`KeyError` (carrying that name); when every field is named `k`, all of
them are substituted by `v`. -/
def formatWithKey (t : List Chunk) (k v : String) : Except String (List Chunk) :=
  match (chunkFieldNames t).find? (fun n => n != k) with
  | some missing => .error missing
  | none =>
    .ok (t.map fun c =>
      match c with
      | .field n => if n == k then Chunk.lit v else Chunk.field n
      | .lit s => Chunk.lit s)

/-- `partial_format` (`utils.py` lines 12-17): for each supplied key in
order, attempt `value.format(**{key: value})`, suppressing `KeyError` and
keeping the previous string when it is raised. -/
def partial_format (value : List Chunk) (formats : List (String × String)) : List Chunk :=
  formats.foldl (fun value kv =>
    match formatWithKey value kv.1 kv.2 with
    | .ok newValue => newValue
    | .error _ => value) value

/-- Typical `co_flags` of a synchronous CPython function
(`CO_OPTIMIZED | CO_NEWLOCALS | CO_NOFREE`): the `CO_COROUTINE` bit is
clear. -/
def syncFlags : CodeObject := ⟨0x43⟩

/-- Typical `co_flags` of an `async def` CPython function: the
`CO_COROUTINE` bit (`0x80`) is set. -/
def asyncFlags : CodeObject := ⟨0xC3⟩

/-- A concrete coroutine tool function returning the string "hello". -/
def demoFn : ToolFn := ⟨asyncFlags, ["x"], false, fun _ => .ok (.str "hello")⟩

/-- A concrete tool named "demo". -/
def demoTool : Tool := ⟨⟨"demo"⟩, demoFn⟩

/-- An environment registering only `demoTool`. -/
def demoEnv : Environment := ⟨[demoTool]⟩

/-- A request for `demoTool` with identifier "call1". -/
def demoCall : ToolCall := ⟨"call1", ⟨"demo", []⟩⟩

/-- A request message carrying only `demoCall`. -/
def demoMsg : ToolRequestMessage := ⟨"assistant", none, none, [demoCall]⟩

/-- A request naming no registered tool. -/
def unknownCall : ToolCall := ⟨"call9", ⟨"nope", []⟩⟩

/-- A concrete coroutine tool function that raises an exception whose
`str()` is "boom". -/
def failFn : ToolFn := ⟨asyncFlags, [], false, fun _ => .error (.raised "boom")⟩

/-- A concrete tool named "fail" wrapping `failFn`. -/
def failTool : Tool := ⟨⟨"fail"⟩, failFn⟩

/-- An environment registering only `failTool`. -/
def failEnv : Environment := ⟨[failTool]⟩

/-- A request for `failTool` with identifier "call2". -/
def failCall : ToolCall := ⟨"call2", ⟨"fail", []⟩⟩

/-- A concrete pydantic model with a set field (alias "A") and a
`None`-valued field (alias "B"). -/
def demoModel : PydModel := ⟨[⟨"a", "A", some (Json.num 1)⟩, ⟨"b", "B", none⟩]⟩

/-- A concrete coroutine tool function returning `demoModel`. -/
def modelFn : ToolFn := ⟨asyncFlags, [], false, fun _ => .ok (.model demoModel)⟩

/-- A concrete tool named "dump" wrapping `modelFn`. -/
def modelTool : Tool := ⟨⟨"dump"⟩, modelFn⟩

/-- An environment registering only `modelTool`. -/
def modelEnv : Environment := ⟨[modelTool]⟩

/-- A request for `modelTool` with identifier "call3". -/
def modelCall : ToolCall := ⟨"call3", ⟨"dump", []⟩⟩

/-- A concrete synchronous tool function (its `CO_COROUTINE` bit is
clear), like `cast_float` of `DummyEnv.reset`. -/
def sync_tool_fn : ToolFn := ⟨syncFlags, ["x"], false, fun _ => .ok (.json (Json.num 1))⟩

/-- A concrete format template with the two distinct replacement fields
"a" and "b". -/
def demoTemplate : List Chunk := [Chunk.field "a", Chunk.lit " ", Chunk.field "b"]

/-- `gather` returns `ok` exactly when every task result is `ok`, in input
order. -/
theorem gather_ok_iff {ε α : Type} (rs : List (Except ε α)) (as : List α) :
    gather rs = Except.ok as ↔ rs = as.map Except.ok := by
  induction rs generalizing as with
  | nil =>
    cases as with
    | nil => simp [gather]
    | cons b bs => simp [gather]
  | cons r rest ih =>
    cases r with
    | error e =>
      cases as with
      | nil => simp [gather]
      | cons b bs => simp [gather]
    | ok a =>
      cases as with
      | nil =>
        simp only [gather, List.map_nil]
        cases hg : gather rest <;> simp [Except.map]
      | cons b bs =>
        simp only [gather, List.map_cons]
        cases hg : gather rest with
        | error e =>
          simp only [Except.map]
          constructor
          · intro hfalse; exact absurd hfalse (by simp)
          · intro heq
            have : gather rest = Except.ok bs := (ih bs).mpr (by
              have := heq
              simp at this
              exact this.2)
            rw [hg] at this
            exact absurd this (by simp)
        | ok cs =>
          simp only [Except.map]
          constructor
          · intro heq
            have h1 : a = b ∧ cs = bs := by
              have := heq
              simp at this
              exact ⟨this.1, this.2⟩
            have h2 : rest = bs.map Except.ok := (ih bs).mp (by rw [hg, h1.2])
            simp [h1.1, h2]
          · intro heq
            have h1 : a = b := by simp at heq; exact heq.1
            have h2 : rest = bs.map Except.ok := by simp at heq; exact heq.2
            have h3 : gather rest = Except.ok bs := (ih bs).mpr h2
            rw [hg] at h3
            simp at h3
            simp [h1, h3]

/-- The sequential branch of `exec_tool_calls` computes the same value as
the concurrent branch: both are the first failure among the per-call
results, or the list of successes in request order. -/
theorem seq_eq_gather (env : Environment) (handle_tool_exc : Bool)
    (function_kwargs : List (String × PyObj)) (tool_calls : List ToolCall) :
    seq_exec_tool_calls env handle_tool_exc function_kwargs tool_calls
      = gather (tool_calls.map (_exec_tool_call env handle_tool_exc function_kwargs)) := by
  induction tool_calls with
  | nil => rfl
  | cons tc rest ih =>
    simp only [seq_exec_tool_calls, List.map_cons]
    cases h : _exec_tool_call env handle_tool_exc function_kwargs tc with
    | error e => rfl
    | ok r =>
      simp only [ih, gather]
      cases hg : gather (rest.map (_exec_tool_call env handle_tool_exc function_kwargs)) with
      | error e => rfl
      | ok rs => rfl

/-- The loop of `filter_invalid_tool_calls` computes the two order-
preserving filters of the tool-call list. -/
theorem split_valid_invalid_eq_filter (env : Environment) (tool_calls : List ToolCall) :
    split_valid_invalid env tool_calls
      = (tool_calls.filter (fun tc =>
            (env.tools.find? fun t => t.info.name == tc.function.name).isSome),
         tool_calls.filter (fun tc =>
            !(env.tools.find? fun t => t.info.name == tc.function.name).isSome)) := by
  induction tool_calls with
  | nil => rfl
  | cons tc rest ih =>
    simp only [split_valid_invalid, ih, List.filter_cons]
    by_cases hp : (env.tools.find? fun t => t.info.name == tc.function.name).isSome
    · simp [hp]
    · simp [hp]

/-- Arithmetic step of the batch count: consuming one batch of size
`b + 1` decrements the ceiling `(m + b) / (b + 1)`. -/
theorem ceil_div_step (m b : Nat) (hm : 1 ≤ m) :
    (m - (b + 1) + b) / (b + 1) + 1 = (m + b) / (b + 1) := by
  rcases le_or_lt m (b + 1) with h | h
  · have h1 : m - (b + 1) = 0 := Nat.sub_eq_zero_of_le h
    have h2 : b / (b + 1) = 0 := Nat.div_eq_of_lt (by omega)
    have h3 : (m + b) / (b + 1) = 1 := Nat.div_eq_of_lt_le (by omega) (by omega)
    rw [h1, Nat.zero_add, h2, h3]
  · have h2 : m - (b + 1) + b = m - 1 := by omega
    have h3 : m + b = m - 1 + (b + 1) := by omega
    rw [h2, h3, Nat.add_div_right _ (by omega)]

/-- Concatenating the batches of `iter_batches` recovers the index list
(mapped through the environment constructor). -/
theorem iter_batches_join_aux {α : Type} (getEnv : Nat → α) (b : Nat) :
    ∀ n : Nat, ∀ idcs : List Nat, idcs.length ≤ n →
      (iter_batches getEnv (b + 1) idcs).flatten = idcs.map getEnv := by
  intro n
  induction n with
  | zero =>
    intro idcs hlen
    have h0 : idcs = [] := List.eq_nil_of_length_eq_zero (Nat.le_zero.mp hlen)
    subst h0
    simp [iter_batches]
  | succ n ih =>
    intro idcs hlen
    cases idcs with
    | nil => simp [iter_batches]
    | cons x rest =>
      have hdrop : ((x :: rest).drop (b + 1)).length ≤ n := by
        simp only [List.length_drop, List.length_cons]
        simp only [List.length_cons] at hlen
        omega
      calc (iter_batches getEnv (b + 1) (x :: rest)).flatten
          = ((x :: rest).take (b + 1)).map getEnv
              ++ (iter_batches getEnv (b + 1) ((x :: rest).drop (b + 1))).flatten := by
            simp [iter_batches]
        _ = ((x :: rest).take (b + 1)).map getEnv
              ++ ((x :: rest).drop (b + 1)).map getEnv := by
            rw [ih _ hdrop]
        _ = (x :: rest).map getEnv := by
            rw [← List.map_append, List.take_append_drop]

/-- Wrapper of `iter_batches_join_aux` at the list's own length. -/
theorem iter_batches_join {α : Type} (getEnv : Nat → α) (b : Nat) (idcs : List Nat) :
    (iter_batches getEnv (b + 1) idcs).flatten = idcs.map getEnv :=
  iter_batches_join_aux getEnv b idcs.length idcs le_rfl

/-- `iter_batches` yields the ceiling of `length / batch_size` batches. -/
theorem iter_batches_length_aux {α : Type} (getEnv : Nat → α) (b : Nat) :
    ∀ n : Nat, ∀ idcs : List Nat, idcs.length ≤ n →
      (iter_batches getEnv (b + 1) idcs).length = (idcs.length + b) / (b + 1) := by
  intro n
  induction n with
  | zero =>
    intro idcs hlen
    have h0 : idcs = [] := List.eq_nil_of_length_eq_zero (Nat.le_zero.mp hlen)
    subst h0
    simp only [iter_batches, List.length_nil, Nat.zero_add]
    rw [Nat.div_eq_of_lt (by omega)]
  | succ n ih =>
    intro idcs hlen
    cases idcs with
    | nil =>
      simp only [iter_batches, List.length_nil, Nat.zero_add]
      rw [Nat.div_eq_of_lt (by omega)]
    | cons x rest =>
      have hdrop : ((x :: rest).drop (b + 1)).length ≤ n := by
        simp only [List.length_drop, List.length_cons]
        simp only [List.length_cons] at hlen
        omega
      have hrec := ih _ hdrop
      have hstep : (iter_batches getEnv (b + 1) (x :: rest)).length
          = (iter_batches getEnv (b + 1) ((x :: rest).drop (b + 1))).length + 1 := by
        simp [iter_batches]
      rw [hstep, hrec]
      simp only [List.length_drop, List.length_cons]
      exact ceil_div_step (rest.length + 1) b (by omega)

/-- Wrapper of `iter_batches_length_aux` at the list's own length. -/
theorem iter_batches_length {α : Type} (getEnv : Nat → α) (b : Nat) (idcs : List Nat) :
    (iter_batches getEnv (b + 1) idcs).length = (idcs.length + b) / (b + 1) :=
  iter_batches_length_aux getEnv b idcs.length idcs le_rfl

/-- The i-th batch of `iter_batches` holds `batch_size` environments,
truncated to what remains of the index list. -/
theorem iter_batches_sizes_aux {α : Type} (getEnv : Nat → α) (b : Nat) :
    ∀ n : Nat, ∀ idcs : List Nat, idcs.length ≤ n → ∀ i : Nat,
      ((iter_batches getEnv (b + 1) idcs)[i]?).map List.length
        = if (b + 1) * i < idcs.length
          then some (min (b + 1) (idcs.length - (b + 1) * i))
          else none := by
  intro n
  induction n with
  | zero =>
    intro idcs hlen i
    have h0 : idcs = [] := List.eq_nil_of_length_eq_zero (Nat.le_zero.mp hlen)
    subst h0
    simp [iter_batches]
  | succ n ih =>
    intro idcs hlen i
    cases idcs with
    | nil => simp [iter_batches]
    | cons x rest =>
      have hdrop : ((x :: rest).drop (b + 1)).length ≤ n := by
        simp only [List.length_drop, List.length_cons]
        simp only [List.length_cons] at hlen
        omega
      cases i with
      | zero =>
        have h0 : ((iter_batches getEnv (b + 1) (x :: rest))[0]?)
            = some (((x :: rest).take (b + 1)).map getEnv) := by
          simp [iter_batches]
        rw [h0]
        simp only [Nat.mul_zero, Nat.sub_zero]
        rw [if_pos (by simp)]
        simp [List.length_take]
        omega
      | succ i =>
        have h1 : ((iter_batches getEnv (b + 1) (x :: rest))[i + 1]?)
            = ((iter_batches getEnv (b + 1) ((x :: rest).drop (b + 1)))[i]?) := by
          simp [iter_batches]
        rw [h1, ih _ hdrop i]
        simp only [List.length_drop, List.length_cons]
        rw [Nat.mul_succ]
        have hcases : ((b + 1) * i < rest.length + 1 - (b + 1))
            ↔ ((b + 1) * i + (b + 1) < rest.length + 1) := by omega
        by_cases hc : (b + 1) * i < rest.length + 1 - (b + 1)
        · rw [if_pos hc, if_pos (hcases.mp hc)]
          congr 1
          omega
        · rw [if_neg hc, if_neg (fun hx => hc (hcases.mpr hx))]

/-- Wrapper of `iter_batches_sizes_aux` at the list's own length. -/
theorem iter_batches_sizes {α : Type} (getEnv : Nat → α) (b : Nat) (idcs : List Nat) (i : Nat) :
    ((iter_batches getEnv (b + 1) idcs)[i]?).map List.length
      = if (b + 1) * i < idcs.length
        then some (min (b + 1) (idcs.length - (b + 1) * i))
        else none :=
  iter_batches_sizes_aux getEnv b idcs.length idcs le_rfl i

/-- C1: for every `ToolRequestMessage` and for either value of the
`ordered` flag, when `Environment.exec_tool_calls` returns a list of
`ToolResponseMessage`s, it has the same length as `message.tool_calls`,
and the i-th response is the result of executing the i-th tool call of
the message — responses come back in the order of their requests. -/
theorem exec_tool_calls_length_and_order (env : Environment) (message : ToolRequestMessage)
    (ordered handle_tool_exc : Bool) (function_kwargs : List (String × PyObj))
    (responses : List ToolResponseMessage)
    (h : exec_tool_calls env message ordered handle_tool_exc function_kwargs
      = Except.ok responses) :
    responses.length = message.tool_calls.length
    ∧ ∀ i : Nat,
        (message.tool_calls[i]?).map (_exec_tool_call env handle_tool_exc function_kwargs)
          = (responses[i]?).map Except.ok := by
  have hmap : message.tool_calls.map (_exec_tool_call env handle_tool_exc function_kwargs)
      = responses.map Except.ok := by
    cases ordered with
    | true =>
      simp only [exec_tool_calls, Bool.not_true, Bool.false_eq_true, if_false] at h
      rw [seq_eq_gather] at h
      exact (gather_ok_iff _ _).mp h
    | false =>
      simp only [exec_tool_calls, Bool.not_false, if_true] at h
      exact (gather_ok_iff _ _).mp h
  constructor
  · have hlen := congrArg List.length hmap
    simpa using hlen.symm
  · intro i
    have hi := congrArg (fun l => l[i]?) hmap
    simpa [List.getElem?_map] using hi

/-- Witness for C1: a concrete single-call message executed against a
concrete environment. -/
theorem exec_tool_calls_length_and_order_witness :
    (exec_tool_calls demoEnv demoMsg false false []
      = Except.ok [ToolResponseMessage.mk "call1" "demo" "hello"])
    ∧ (([ToolResponseMessage.mk "call1" "demo" "hello"] : List ToolResponseMessage).length
        = demoMsg.tool_calls.length
      ∧ ∀ i : Nat,
          (demoMsg.tool_calls[i]?).map (_exec_tool_call demoEnv false [])
            = (([ToolResponseMessage.mk "call1" "demo" "hello"]
                : List ToolResponseMessage)[i]?).map Except.ok) :=
  ⟨rfl, exec_tool_calls_length_and_order demoEnv demoMsg false false [] _ rfl⟩

/-- C2: a tool call naming a function that is the name of no tool of the
environment is rejected with
`ValueError ("<name> not a valid function.")`, for either value of
`handle_tool_exc` (the lookup sits outside the exception-suppression
block), and the error propagates out of `exec_tool_calls` for either
value of `ordered`. -/
theorem exec_tool_call_unknown_name_value_error (env : Environment) (tool_call : ToolCall)
    (h : ∀ t ∈ env.tools, t.info.name ≠ tool_call.function.name) :
    ∀ handle_tool_exc : Bool, ∀ function_kwargs : List (String × PyObj),
      (_exec_tool_call env handle_tool_exc function_kwargs tool_call
        = Except.error
            (PyExc.valueError (tool_call.function.name ++ " not a valid function.")))
      ∧ ∀ ordered : Bool,
          exec_tool_calls env ⟨"assistant", none, none, [tool_call]⟩ ordered
              handle_tool_exc function_kwargs
            = Except.error
                (PyExc.valueError (tool_call.function.name ++ " not a valid function.")) := by
  have hfind : env.tools.find? (fun t => t.info.name == tool_call.function.name) = none := by
    rw [List.find?_eq_none]
    intro t ht
    simpa using h t ht
  intro handle_tool_exc function_kwargs
  have hcall : _exec_tool_call env handle_tool_exc function_kwargs tool_call
      = Except.error
          (PyExc.valueError (tool_call.function.name ++ " not a valid function.")) := by
    simp [_exec_tool_call, hfind]
  refine ⟨hcall, ?_⟩
  intro ordered
  cases ordered with
  | true =>
    simp only [exec_tool_calls, Bool.not_true, Bool.false_eq_true, if_false,
      seq_exec_tool_calls, hcall]
    rfl
  | false =>
    simp only [exec_tool_calls, Bool.not_false, if_true, List.map_cons, List.map_nil,
      hcall]
    rfl

/-- Witness for C2: the tool call named "nope" against an environment
whose only tool is named "demo". -/
theorem exec_tool_call_unknown_name_value_error_witness :
    _exec_tool_call demoEnv true [] unknownCall
      = Except.error
          (PyExc.valueError (unknownCall.function.name ++ " not a valid function.")) :=
  ((exec_tool_call_unknown_name_value_error demoEnv unknownCall (by decide)) true []).1

/-- C3: when the tool function raises during execution, with
`handle_tool_exc = True` the per-call result is a `ToolResponseMessage`
whose content is
"Failed to execute tool call for tool <tool name>:\n<exception>", and
with `handle_tool_exc = False` the exception propagates out of
`exec_tool_calls` (shown on the surrounding single-call message for
either value of `ordered`). -/
theorem exec_tool_calls_exception_handling (env : Environment) (tool_call : ToolCall)
    (function_kwargs : List (String × PyObj)) (tool : Tool) (exc : PyExc)
    (hfind : env.tools.find? (fun t => t.info.name == tool_call.function.name) = some tool)
    (hrun : await_tool_fn tool.tool_fn
        (tool_call.function.arguments ++ filtered_kwargs tool function_kwargs)
      = Except.error exc) :
    (_exec_tool_call env true function_kwargs tool_call
      = Except.ok (ToolResponseMessage.from_call tool_call
          ("Failed to execute tool call for tool " ++ tool.info.name ++ ":\n" ++ exc.str)))
    ∧ (_exec_tool_call env false function_kwargs tool_call = Except.error exc)
    ∧ ∀ ordered : Bool,
        exec_tool_calls env ⟨"assistant", none, none, [tool_call]⟩ ordered false
            function_kwargs
          = Except.error exc := by
  have htrue : _exec_tool_call env true function_kwargs tool_call
      = Except.ok (ToolResponseMessage.from_call tool_call
          ("Failed to execute tool call for tool " ++ tool.info.name ++ ":\n" ++ exc.str)) := by
    simp [_exec_tool_call, hfind, hrun]
  have hfalse : _exec_tool_call env false function_kwargs tool_call = Except.error exc := by
    simp [_exec_tool_call, hfind, hrun]
  refine ⟨htrue, hfalse, ?_⟩
  intro ordered
  cases ordered with
  | true =>
    simp only [exec_tool_calls, Bool.not_true, Bool.false_eq_true, if_false,
      seq_exec_tool_calls, hfalse]
    rfl
  | false =>
    simp only [exec_tool_calls, Bool.not_false, if_true, List.map_cons, List.map_nil,
      hfalse]
    rfl

/-- Witness for C3: a concrete tool that raises "boom". -/
theorem exec_tool_calls_exception_handling_witness :
    (_exec_tool_call failEnv true [] failCall
      = Except.ok (ToolResponseMessage.mk "call2" "fail"
          "Failed to execute tool call for tool fail:\nboom"))
    ∧ (_exec_tool_call failEnv false [] failCall = Except.error (PyExc.raised "boom")) :=
  ⟨(exec_tool_calls_exception_handling failEnv failCall [] failTool
      (PyExc.raised "boom") rfl rfl).1,
   (exec_tool_calls_exception_handling failEnv failCall [] failTool
      (PyExc.raised "boom") rfl rfl).2.1⟩

/-- C4: `filter_invalid_tool_calls` partitions the message's tool calls:
the first output keeps (in order) exactly the calls whose function name
matches a registered tool, the second keeps (in order) exactly the rest,
together they are a permutation of the input's calls (each call lands in
exactly one output), and both outputs carry the input's `role`, `content`
and `function_call` unchanged. -/
theorem filter_invalid_tool_calls_partition (env : Environment) (message : ToolRequestMessage) :
    ((filter_invalid_tool_calls env message).1.tool_calls
      = message.tool_calls.filter (fun tc =>
          (env.tools.find? fun t => t.info.name == tc.function.name).isSome))
    ∧ ((filter_invalid_tool_calls env message).2.tool_calls
      = message.tool_calls.filter (fun tc =>
          !(env.tools.find? fun t => t.info.name == tc.function.name).isSome))
    ∧ List.Perm
        ((filter_invalid_tool_calls env message).1.tool_calls
          ++ (filter_invalid_tool_calls env message).2.tool_calls)
        message.tool_calls
    ∧ (filter_invalid_tool_calls env message).1.role = message.role
    ∧ (filter_invalid_tool_calls env message).1.content = message.content
    ∧ (filter_invalid_tool_calls env message).1.function_call = message.function_call
    ∧ (filter_invalid_tool_calls env message).2.role = message.role
    ∧ (filter_invalid_tool_calls env message).2.content = message.content
    ∧ (filter_invalid_tool_calls env message).2.function_call = message.function_call := by
  have hs := split_valid_invalid_eq_filter env message.tool_calls
  refine ⟨?_, ?_, ?_, rfl, rfl, rfl, rfl, rfl, rfl⟩
  · simp [filter_invalid_tool_calls, hs]
  · simp [filter_invalid_tool_calls, hs]
  · simp only [filter_invalid_tool_calls, hs]
    exact List.filter_append_perm _ _

/-- C5: for a tool call whose function call returns a value without
raising, the response content is determined by the value's type: a `str`
as-is, a pydantic model via its JSON dump excluding `None` fields and
using aliases, and any other value (`None` included) via `json.dumps`. -/
theorem exec_tool_call_serializes_content (env : Environment) (tool_call : ToolCall)
    (handle_tool_exc : Bool) (function_kwargs : List (String × PyObj)) (tool : Tool)
    (content : PyObj)
    (hfind : env.tools.find? (fun t => t.info.name == tool_call.function.name) = some tool)
    (hrun : await_tool_fn tool.tool_fn
        (tool_call.function.arguments ++ filtered_kwargs tool function_kwargs)
      = Except.ok content) :
    _exec_tool_call env handle_tool_exc function_kwargs tool_call
      = Except.ok (ToolResponseMessage.from_call tool_call
          (match content with
           | .str s => s
           | .model m => m.model_dump_json true true
           | .json j => Json.dumps j)) := by
  have hser : serialize_content content
      = match content with
        | .str s => s
        | .model m => m.model_dump_json true true
        | .json j => Json.dumps j := by
    cases content <;> rfl
  simp [_exec_tool_call, hfind, hrun, hser]

/-- Witness for C5: a concrete tool returning a pydantic model with a
`None` field; the response content is its compact alias-keyed dump with
the `None` field dropped. -/
theorem exec_tool_call_serializes_content_witness :
    _exec_tool_call modelEnv false [] modelCall
      = Except.ok (ToolResponseMessage.mk "call3" "dump" "\x7b\"A\":1\x7d") :=
  exec_tool_call_serializes_content modelEnv modelCall false [] modelTool
    (PyObj.model demoModel) rfl rfl

/-- C6: every successful per-call response is built by
`ToolResponseMessage.from_call`, so it carries the originating request's
identifier (and function name). -/
theorem exec_tool_call_pairs_response_by_id (env : Environment) (handle_tool_exc : Bool)
    (function_kwargs : List (String × PyObj)) (tool_call : ToolCall)
    (response : ToolResponseMessage)
    (h : _exec_tool_call env handle_tool_exc function_kwargs tool_call
      = Except.ok response) :
    response.tool_call_id = tool_call.id ∧ response.name = tool_call.function.name := by
  unfold _exec_tool_call at h
  split at h
  · simp at h
  · split at h
    · simp only [Except.ok.injEq] at h
      subst h
      exact ⟨rfl, rfl⟩
    · split at h
      · simp only [Except.ok.injEq] at h
        subst h
        exact ⟨rfl, rfl⟩
      · simp at h

/-- Witness for C6: the concrete response to `demoCall` carries its
identifier "call1" and its function name "demo". -/
theorem exec_tool_call_pairs_response_by_id_witness :
    (_exec_tool_call demoEnv false [] demoCall
      = Except.ok (ToolResponseMessage.mk "call1" "demo" "hello"))
    ∧ ((ToolResponseMessage.mk "call1" "demo" "hello").tool_call_id = demoCall.id
      ∧ (ToolResponseMessage.mk "call1" "demo" "hello").name = demoCall.function.name) :=
  ⟨rfl, exec_tool_call_pairs_response_by_id demoEnv false [] demoCall _ rfl⟩

/-- C7 (code bug): `is_coroutine_callable` as written returns `true` for
EVERY plain function — `isinstance(co_flags & 0x80, int)` tests the type
of the masked flags, not the `CO_COROUTINE` bit — so it also returns
`true` for a synchronous function (flags `0x43`), which
`inspect.iscoroutinefunction` classifies as not a coroutine function;
consequently `exec_tool_calls` awaits the synchronous call's plain return
value, raising `TypeError`, instead of running it via
`asyncio.to_thread`. -/
theorem is_coroutine_callable_true_on_sync :
    (∀ code : CodeObject, is_coroutine_callable (.function code) = true)
    ∧ is_coroutine_callable (.function syncFlags) = true
    ∧ iscoroutinefunction syncFlags = false
    ∧ await_tool_fn sync_tool_fn []
        = Except.error (.typeError "object can not be used in await expression") :=
  ⟨fun _ => rfl, rfl, by decide, rfl⟩

/-- C8: with per-call results that are pure functions of their arguments
(as all tool functions are in this embedding), sequential
(`ordered=True`) and concurrent (`ordered=False`) execution return the
same result. -/
theorem exec_tool_calls_ordered_eq_unordered (env : Environment)
    (message : ToolRequestMessage) (handle_tool_exc : Bool)
    (function_kwargs : List (String × PyObj)) :
    exec_tool_calls env message true handle_tool_exc function_kwargs
      = exec_tool_calls env message false handle_tool_exc function_kwargs := by
  simp [exec_tool_calls, seq_eq_gather]

/-- C9: for a finite dataset of `n` indices and `batch_size ≥ 1`,
`iter_batches` yields `ceil(n / batch_size)` batches; their concatenation
is the (possibly shuffled) index list mapped through the environment
constructor — each index used exactly once; batch `i` holds
`min batch_size (n - batch_size * i)` environments, i.e. exactly
`batch_size` except possibly the last, which holds the remainder; with
`shuffle=False` the concatenation is `range n` in increasing order. -/
theorem iter_batches_spec {α : Type} (getEnv : Nat → α) (n b : Nat) (hb : 1 ≤ b)
    (idcs : List Nat) (hperm : List.Perm idcs (List.range n)) :
    ((iter_batches getEnv b idcs).length = (n + b - 1) / b)
    ∧ List.Perm (iter_batches getEnv b idcs).flatten ((List.range n).map getEnv)
    ∧ (∀ i : Nat, ((iter_batches getEnv b idcs)[i]?).map List.length
        = if b * i < n then some (min b (n - b * i)) else none)
    ∧ (iter_batches getEnv b (List.range n)).flatten = (List.range n).map getEnv := by
  cases b with
  | zero => exact absurd hb (by omega)
  | succ k =>
    have hlen : idcs.length = n := by simpa using hperm.length_eq
    refine ⟨?_, ?_, ?_, ?_⟩
    · rw [iter_batches_length getEnv k idcs, hlen]
      congr 1
    · rw [iter_batches_join getEnv k idcs]
      exact hperm.map getEnv
    · intro i
      rw [iter_batches_sizes getEnv k idcs i, hlen]
    · rw [iter_batches_join getEnv k (List.range n)]

/-- Witness for C9: five indices in batches of two. -/
theorem iter_batches_spec_witness :
    ((iter_batches (fun i : Nat => i) 2 (List.range 5)).length = (5 + 2 - 1) / 2)
    ∧ List.Perm (iter_batches (fun i : Nat => i) 2 (List.range 5)).flatten
        ((List.range 5).map (fun i : Nat => i))
    ∧ (∀ i : Nat, ((iter_batches (fun i : Nat => i) 2 (List.range 5))[i]?).map List.length
        = if 2 * i < 5 then some (min 2 (5 - 2 * i)) else none)
    ∧ (iter_batches (fun i : Nat => i) 2 (List.range 5)).flatten
        = (List.range 5).map (fun i : Nat => i) :=
  iter_batches_spec (fun i : Nat => i) 5 2 (by omega) (List.range 5) (List.Perm.refl _)

/-- C10: on a template with two or more distinct replacement fields,
`partial_format` returns the template unchanged whatever keys the formats
mapping supplies, because each single-key `format` call raises a
(suppressed) `KeyError`. -/
theorem partial_format_multifield_unchanged (t : List Chunk)
    (formats : List (String × String))
    (h : 2 ≤ (chunkFieldNames t).dedup.length) :
    partial_format t formats = t
    ∧ ∀ k v : String, ∃ missing : String,
        formatWithKey t k v = Except.error missing := by
  have hkey : ∀ k v : String, ∃ missing : String,
      formatWithKey t k v = Except.error missing := by
    intro k v
    cases hf : (chunkFieldNames t).find? (fun nm => nm != k) with
    | some missing => exact ⟨missing, by simp [formatWithKey, hf]⟩
    | none =>
      exfalso
      have hall : ∀ x ∈ chunkFieldNames t, x = k := by
        intro x hx
        have hnx := List.find?_eq_none.mp hf x hx
        simpa using hnx
      have hdedup : ∀ x ∈ (chunkFieldNames t).dedup, x = k := fun x hx =>
        hall x (List.mem_dedup.mp hx)
      have hnd := List.nodup_dedup (chunkFieldNames t)
      rcases hd : (chunkFieldNames t).dedup with _ | ⟨a, _ | ⟨c, rest⟩⟩
      · rw [hd] at h
        simp at h
      · rw [hd] at h
        simp at h
      · rw [hd] at hdedup hnd
        have ha : a = k := hdedup a (by simp)
        have hc : c = k := hdedup c (by simp)
        rw [List.nodup_cons] at hnd
        exact hnd.1 (by simp [ha, hc])
  refine ⟨?_, hkey⟩
  rw [partial_format]
  induction formats with
  | nil => rfl
  | cons kv rest ih =>
    rw [List.foldl_cons]
    obtain ⟨m, hm⟩ := hkey kv.1 kv.2
    simp only [hm]
    exact ih

/-- Witness for C10: the template "\x7ba\x7d \x7bb\x7d" with values
supplied for both of its fields comes back unchanged. -/
theorem partial_format_multifield_unchanged_witness :
    (2 ≤ (chunkFieldNames demoTemplate).dedup.length)
    ∧ (partial_format demoTemplate [("a", "x"), ("b", "y")] = demoTemplate
      ∧ ∀ k v : String, ∃ missing : String,
          formatWithKey demoTemplate k v = Except.error missing) :=
  ⟨by decide,
   partial_format_multifield_unchanged demoTemplate [("a", "x"), ("b", "y")] (by decide)⟩

end Aviary
